import Mathlib

/-!
Verification of the RedMesh probe-result normalization and port-aggregation
engine. JavaScript runtime values are embedded as the inductive `JsVal`;
strings are `List Char` so that substring, split and case operations can be
reasoned about directly. Every definition mirrors the corresponding source
function (`src/lib/utils/probeResult.ts`, the `DiscoveredPorts` component and
the shared knowledge tables); the two definitions whose source file is absent
from the sources are explicitly marked as modelled from the spec.
-/

namespace RedMesh

/-- JavaScript strings are modelled as lists of characters. -/
abbrev JStr := List Char

/-- Shorthand turning a Lean string literal into the `List Char` model. -/
def js (s : String) : JStr := s.data

/-- A JavaScript runtime value, as far as the probe-result code observes it.
`undefined` object fields are modelled as absent keys. -/
inductive JsVal where
  | vNull
  | vBool (b : Bool)
  | vNum (n : Int)
  | vStr (s : JStr)
  | vArr (elems : List JsVal)
  | vObj (fields : List (String × JsVal))

open JsVal

/-- JavaScript truthiness of a value (`if (x)`). -/
def truthy : JsVal → Bool
  | vNull => false
  | vBool b => b
  | vNum n => n != 0
  | vStr s => !s.isEmpty
  | vArr _ => true
  | vObj _ => true

mutual

/-- `String(v)` for a JavaScript value. -/
def jsToString : JsVal → JStr
  | vNull => js "null"
  | vBool b => if b then js "true" else js "false"
  | vNum n => (toString n).data
  | vStr s => s
  | vArr xs => jsArrToString xs
  | vObj _ => js "[object Object]"

/-- `Array.prototype.toString`, i.e. `join(',')`. -/
def jsArrToString : List JsVal → JStr
  | [] => []
  | [x] => jsElemToString x
  | x :: xs => jsElemToString x ++ ',' :: jsArrToString xs

/-- Stringification of one array element inside `join`: `null` becomes
the empty string, every other value stringifies as usual. -/
def jsElemToString : JsVal → JStr
  | vNull => []
  | vBool b => if b then js "true" else js "false"
  | vNum n => (toString n).data
  | vStr s => s
  | vArr xs => jsArrToString xs
  | vObj _ => js "[object Object]"

end

/-- `Array.prototype.join(sep)` with JS element stringification. -/
def jsJoin (sep : JStr) : List JsVal → JStr
  | [] => []
  | [x] => jsElemToString x
  | x :: xs => jsElemToString x ++ sep ++ jsJoin sep xs

/-- Escaping used by `JSON.stringify` for string payloads (quote, backslash
and the common control characters that can appear in probe text). -/
def jsonEscape : JStr → JStr
  | [] => []
  | c :: cs =>
    if c = '\"' then '\\' :: '\"' :: jsonEscape cs
    else if c = '\\' then '\\' :: '\\' :: jsonEscape cs
    else if c = '\n' then '\\' :: 'n' :: jsonEscape cs
    else if c = '\t' then '\\' :: 't' :: jsonEscape cs
    else if c = '\r' then '\\' :: 'r' :: jsonEscape cs
    else c :: jsonEscape cs

/-- A quoted JSON string literal. -/
def jsonQuote (s : JStr) : JStr := '\"' :: jsonEscape s ++ ['\"']

/-- Opening curly bracket character (ASCII 123). -/
def lcurly : Char := Char.ofNat 123

/-- Closing curly bracket character (ASCII 125). -/
def rcurly : Char := Char.ofNat 125

mutual

/-- `JSON.stringify` over the embedded value type. -/
def jsonStringify : JsVal → JStr
  | vNull => js "null"
  | vBool b => if b then js "true" else js "false"
  | vNum n => (toString n).data
  | vStr s => jsonQuote s
  | vArr xs => '[' :: jsonArrBody xs ++ [']']
  | vObj fs => lcurly :: jsonObjBody fs ++ [rcurly]

/-- Comma-separated body of a JSON array. -/
def jsonArrBody : List JsVal → JStr
  | [] => []
  | [x] => jsonStringify x
  | x :: xs => jsonStringify x ++ ',' :: jsonArrBody xs

/-- Comma-separated body of a JSON object. -/
def jsonObjBody : List (String × JsVal) → JStr
  | [] => []
  | [kv] => jsonQuote kv.1.data ++ ':' :: jsonStringify kv.2
  | kv :: fs => jsonQuote kv.1.data ++ ':' :: jsonStringify kv.2 ++ ',' :: jsonObjBody fs

end

/-- `hay.includes(needle)`: substring containment on JS strings. -/
def includes (hay needle : JStr) : Bool := decide (needle <:+: hay)

/-- `str.startsWith(pre)` on JS strings. -/
def startsWith (s pre : JStr) : Bool := pre.isPrefixOf s

/-- `str.toUpperCase()` restricted to the ASCII range the probes use. -/
def upperStr (s : JStr) : JStr := s.map Char.toUpper

/-- Field access `obj.key` on a structured record (absent key = `undefined`). -/
def getF (fs : List (String × JsVal)) (k : String) : Option JsVal := fs.lookup k

/-- Nullish coalescing `x ?? d`: `null`/`undefined` fall back to the default. -/
def nullishD (o : Option JsVal) (d : JsVal) : JsVal :=
  match o with
  | none => d
  | some vNull => d
  | some v => v

/-- Mirrors the `ParsedFinding` interface of `probeResult.ts`. The severity
is a plain runtime string: the TypeScript union annotation is produced by an
unchecked cast and does not restrict the runtime value. -/
structure ParsedFinding where
  severity : JStr
  title : JStr
  description : Option JStr := none
  evidence : Option JStr := none
  remediation : Option JStr := none
  owasp_id : Option JStr := none
  cwe_id : Option JStr := none
  confidence : Option JStr := none
deriving DecidableEq

/-- Mirrors the `NormalizedProbeResult` interface of `probeResult.ts`. -/
structure NormalizedProbeResult where
  lines : List JStr
  findings : List ParsedFinding
  hasVulnerability : Bool
  hasError : Bool
  vulnerabilities : List JStr
  banner : Option JStr
deriving DecidableEq

/-- An optional narrative field of a finding: carried only when truthy
(`if (finding.description) parsed.description = String(...)`). -/
def optStrField (f : List (String × JsVal)) (k : String) : Option JStr :=
  match getF f k with
  | some v => if truthy v then some (jsToString v) else none
  | none => none

/-- One iteration of the findings loop in `normalizeProbeResult`: entries
that are not objects (`typeof f !== 'object' || f === null`) are skipped;
note that arrays pass the `typeof` test and parse as empty records. -/
def parseFinding : JsVal → Option ParsedFinding
  | vObj f =>
    some
      { severity := upperStr (jsToString (nullishD (getF f "severity") (vStr (js "INFO"))))
        title := jsToString (nullishD (getF f "title") (vStr []))
        description := optStrField f "description"
        evidence := optStrField f "evidence"
        remediation := optStrField f "remediation"
        owasp_id := optStrField f "owasp_id"
        cwe_id := optStrField f "cwe_id"
        confidence := optStrField f "confidence" }
  | vArr _ =>
    some { severity := js "INFO", title := [] }
  | _ => none

/-- Severity values classified as vulnerability-grade. -/
def isVulnSeverity (sev : JStr) : Bool :=
  decide (sev = js "CRITICAL") || decide (sev = js "HIGH") || decide (sev = js "MEDIUM")

/-- Body of the structured-findings loop: skipped entries leave the
accumulator unchanged; vulnerability-grade findings add their rendered label
to both `vulnerabilities` and `lines`. -/
def pfStep (acc : List ParsedFinding × List JStr × List JStr) (raw : JsVal) :
    List ParsedFinding × List JStr × List JStr :=
  match parseFinding raw with
  | none => acc
  | some p =>
    if isVulnSeverity p.severity then
      let label := js "VULNERABILITY: [" ++ p.severity ++ js "] " ++ p.title
      (acc.1 ++ [p], acc.2.1 ++ [label], acc.2.2 ++ [label])
    else
      (acc.1 ++ [p], acc.2.1, acc.2.2 ++ [js "[" ++ p.severity ++ js "] " ++ p.title])

/-- The structured-findings loop: accumulates parsed findings, vulnerability
labels and display lines in source order. -/
def processFindings (xs : List JsVal) :
    List ParsedFinding × List JStr × List JStr :=
  xs.foldl pfStep ([], [], [])

/-- The legacy `obj.vulnerabilities` loop with its duplicate-avoidance test:
an entry is added unless the accumulated list already contains it verbatim or
some accumulated entry contains it as a substring. -/
def addLegacyVulns (start : List JStr × List JStr) (xs : List JsVal) :
    List JStr × List JStr :=
  xs.foldl
    (fun acc v =>
      let vs := jsToString v
      if decide (vs ∈ acc.1) || acc.1.any (fun existing => includes existing vs) then acc
      else (acc.1 ++ [vs], acc.2 ++ [js "VULNERABILITY: " ++ vs]))
    start

/-- A line emitted when an optional array field is present and non-empty. -/
def arrJoinLine (fs : List (String × JsVal)) (k : String) (label : JStr) : List JStr :=
  match getF fs k with
  | some (vArr xs) => if 0 < xs.length then [label ++ jsJoin (js ", ") xs] else []
  | _ => []

/-- A line emitted when an optional scalar field is truthy. -/
def truthyLine (fs : List (String × JsVal)) (k : String) (label : JStr) : List JStr :=
  match getF fs k with
  | some v => if truthy v then [label ++ jsToString v] else []
  | _ => []

/-- The `directory_listing` block: a header plus one indented line per entry. -/
def directoryListingLines (fs : List (String × JsVal)) : List JStr :=
  match getF fs "directory_listing" with
  | some (vArr xs) =>
    if 0 < xs.length then
      (js "Directory listing (" ++ (toString xs.length).data ++ js " entries):") ::
        xs.map (fun entry => js "  " ++ jsToString entry)
    else []
  | _ => []

/-- The `weak_algorithms` block: one line per algorithm. -/
def weakAlgorithmsLines (fs : List (String × JsVal)) : List JStr :=
  match getF fs "weak_algorithms" with
  | some (vArr xs) =>
    if 0 < xs.length then xs.map (fun algo => js "Weak " ++ jsToString algo) else []
  | _ => []

/-- Lines for boolean flags compared with `=== true`. -/
def exactTrueLine (fs : List (String × JsVal)) (k : String) (line : JStr) : List JStr :=
  match getF fs k with
  | some (vBool true) => [line]
  | _ => []

/-- Lines for fields tested with `typeof x === 'boolean'`. -/
def boolYesNoLine (fs : List (String × JsVal)) (k : String) (label : JStr) : List JStr :=
  match getF fs k with
  | some (vBool b) => [label ++ (if b then js "Yes" else js "No")]
  | _ => []

/-- The `db_size` line, guarded by `typeof x === 'number'`. -/
def dbSizeLine (fs : List (String × JsVal)) : List JStr :=
  match getF fs "db_size" with
  | some (vNum n) => [js "DB size: " ++ (toString n).data ++ js " keys"]
  | _ => []

/-- The recognized field names that the catch-all loop skips. -/
def handledKeys : List String :=
  ["banner", "auth_methods", "vulnerabilities", "accepted_credentials", "error",
   "server_type", "features", "anonymous_access", "write_access", "tls_supported",
   "directory_listing", "negotiation_options", "system_info",
   "server_hostname", "max_message_size", "starttls", "open_relay", "vrfy_enabled",
   "expn_enabled", "ssh_version", "weak_algorithms",
   "version", "os", "config_writable", "db_size", "connected_clients",
   "auth_plugin", "protocol_byte",
   "security_types", "security_type_labels",
   "server", "title", "technologies", "dangerous_methods",
   "powered_by", "generator", "vpn_endpoints",
   "findings"]

/-- The catch-all loop over `Object.entries(obj)`: every unhandled non-null
field becomes a generic `key: value` line, and the rendered value is scanned
for the vulnerability marker. -/
def catchAllFields (fs : List (String × JsVal)) (start : List JStr × List JStr) :
    List JStr × List JStr :=
  fs.foldl
    (fun acc kv =>
      if decide (kv.1 ∈ handledKeys) then acc
      else
        match kv.2 with
        | vNull => acc
        | v =>
          let valStr :=
            match v with
            | vArr _ => jsonStringify v
            | vObj _ => jsonStringify v
            | _ => jsToString v
          let vulns := if includes valStr (js "VULNERABILITY") then acc.1 ++ [valStr] else acc.1
          (vulns, acc.2 ++ [kv.1.data ++ js ": " ++ valStr]))
    start

/-- The banner display line (emitted when the banner string is truthy). -/
def bannerLine : Option JStr → List JStr
  | some b => if b.isEmpty then [] else [js "Banner: " ++ b]
  | none => []

/-- Display lines and vulnerability labels for the non-error structured
branch of `normalizeProbeResult`, in source emission order. The first
component is the final `vulnerabilities` list, the second the final `lines`. -/
def structBody (fs : List (String × JsVal)) (banner : Option JStr) :
    List ParsedFinding × List JStr × List JStr :=
  let pf :=
    match getF fs "findings" with
    | some (vArr xs) => if 0 < xs.length then processFindings xs else ([], [], [])
    | _ => ([], [], [])
  let lines0 := pf.2.2 ++ bannerLine banner ++ arrJoinLine fs "auth_methods" (js "Auth methods: ")
  let afterVulns :=
    addLegacyVulns (pf.2.1, lines0)
      (match getF fs "vulnerabilities" with
       | some (vArr xs) => xs
       | _ => [])
  let lines1 := afterVulns.2
    ++ arrJoinLine fs "accepted_credentials" (js "Accepted credentials: ")
    ++ truthyLine fs "server_type" (js "Server type: ")
    ++ arrJoinLine fs "features" (js "Features: ")
    ++ exactTrueLine fs "anonymous_access" (js "Anonymous access: Yes")
    ++ exactTrueLine fs "write_access" (js "Write access: Yes")
    ++ boolYesNoLine fs "tls_supported" (js "TLS support: ")
    ++ directoryListingLines fs
    ++ arrJoinLine fs "negotiation_options" (js "Negotiation: ")
    ++ truthyLine fs "system_info" (js "System: ")
    ++ truthyLine fs "server_hostname" (js "Server hostname: ")
    ++ truthyLine fs "max_message_size" (js "Max message size: ")
    ++ truthyLine fs "ssh_version" (js "SSH version: ")
    ++ weakAlgorithmsLines fs
    ++ truthyLine fs "version" (js "Version: ")
    ++ truthyLine fs "os" (js "OS: ")
    ++ boolYesNoLine fs "config_writable" (js "CONFIG writable: ")
    ++ dbSizeLine fs
    ++ arrJoinLine fs "connected_clients" (js "Connected clients: ")
    ++ truthyLine fs "auth_plugin" (js "Auth plugin: ")
    ++ arrJoinLine fs "security_type_labels" (js "Security types: ")
    ++ truthyLine fs "server" (js "Server: ")
    ++ truthyLine fs "title" (js "Title: ")
    ++ arrJoinLine fs "technologies" (js "Technologies: ")
    ++ (if pf.1.isEmpty then arrJoinLine fs "dangerous_methods" (js "Dangerous methods: ") else [])
    ++ truthyLine fs "powered_by" (js "X-Powered-By: ")
    ++ truthyLine fs "generator" (js "Generator: ")
  let final := catchAllFields fs (afterVulns.1, lines1)
  (pf.1, final.1, final.2)

/-- Whether the structured record carries a truthy `error` field. -/
def hasErrField (fs : List (String × JsVal)) : Bool :=
  match getF fs "error" with
  | some v => truthy v
  | none => false

/-- The structured-record branch of `normalizeProbeResult`. -/
def normalizeObj (fs : List (String × JsVal)) : NormalizedProbeResult :=
  let banner :=
    match getF fs "banner" with
    | some b => if truthy b then some (jsToString b) else none
    | none => none
  match getF fs "error" with
  | some e =>
    if truthy e then
      { lines := [jsToString e], findings := [], hasVulnerability := false,
        hasError := true, vulnerabilities := [], banner := none }
    else
      let body := structBody fs banner
      { lines := body.2.2, findings := body.1,
        hasVulnerability := !body.2.1.isEmpty, hasError := false,
        vulnerabilities := body.2.1, banner := banner }
  | none =>
    let body := structBody fs banner
    { lines := body.2.2, findings := body.1,
      hasVulnerability := !body.2.1.isEmpty, hasError := false,
      vulnerabilities := body.2.1, banner := banner }

/-- `str.split('\n')` on the character-list model. -/
def splitNl : JStr → List JStr
  | [] => [[]]
  | c :: cs =>
    if c = '\n' then [] :: splitNl cs
    else
      match splitNl cs with
      | [] => [[c]]
      | h :: t => (c :: h) :: t

/-- A line survives the `.filter((l) => l.trim())` test iff it has a
non-whitespace character. -/
def lineKept (l : JStr) : Bool := l.any (fun c => !c.isWhitespace)

/-- The legacy free-text branch of `normalizeProbeResult`. -/
def normalizeLegacy (str : JStr) : NormalizedProbeResult :=
  let lines := (splitNl str).filter lineKept
  let vulnerabilities := lines.filter (fun l => includes l (js "VULNERABILITY"))
  { lines := lines, findings := [],
    hasVulnerability := includes str (js "VULNERABILITY"),
    hasError := includes str (js "failed") || includes str (js "timed out")
      || startsWith str (js "ERROR:"),
    vulnerabilities := vulnerabilities, banner := none }

/-- `normalizeProbeResult` from `src/lib/utils/probeResult.ts`: `null` and
`undefined` map to the empty result, non-array objects to the structured
branch, and everything else is stringified into the legacy branch. -/
def normalizeProbeResult : JsVal → NormalizedProbeResult
  | vNull =>
    { lines := [], findings := [], hasVulnerability := false, hasError := false,
      vulnerabilities := [], banner := none }
  | vObj fs => normalizeObj fs
  | v => normalizeLegacy (jsToString v)

/-- The well-known-port table from the shared knowledge base
(`WELL_KNOWN_PORTS` in the domain knowledge module). -/
def WELL_KNOWN_PORTS : List (Nat × String) :=
  [(21, "FTP"), (22, "SSH"), (23, "TELNET"), (25, "SMTP"), (42, "WINS"),
   (53, "DNS"), (80, "HTTP"), (81, "HTTP"), (110, "POP3"), (143, "IMAP"),
   (161, "SNMP"), (443, "HTTPS"), (445, "SMB"), (465, "SMTP"),
   (502, "MODBUS"), (587, "SMTP"), (993, "IMAP"), (995, "POP3"),
   (1433, "MSSQL"), (3306, "MYSQL"), (3389, "RDP"), (5432, "POSTGRESQL"),
   (5900, "VNC"), (6379, "REDIS"), (8000, "HTTP"), (8008, "HTTP"),
   (8080, "HTTP"), (8081, "HTTP"), (8443, "HTTPS"), (8888, "HTTP"),
   (9200, "HTTP"), (11211, "MEMCACHED"), (27017, "MONGODB")]

/-- The probe-name to canonical-protocol table of the `DiscoveredPorts`
component (`PROBE_TO_PROTOCOL`). -/
def PROBE_TO_PROTOCOL : List (String × String) :=
  [("_service_info_ftp", "FTP"), ("_service_info_ssh", "SSH"),
   ("_service_info_telnet", "TELNET"), ("_service_info_smtp", "SMTP"),
   ("_service_info_dns", "DNS"), ("_service_info_http", "HTTP"),
   ("_service_info_https", "HTTPS"), ("_service_info_http_alt", "HTTP"),
   ("_service_info_tls", "TLS"), ("_service_info_mssql", "MSSQL"),
   ("_service_info_mysql", "MYSQL"), ("_service_info_rdp", "RDP"),
   ("_service_info_postgresql", "POSTGRESQL"), ("_service_info_vnc", "VNC"),
   ("_service_info_redis", "REDIS"), ("_service_info_elasticsearch", "ELASTICSEARCH"),
   ("_service_info_memcached", "MEMCACHED"), ("_service_info_mongodb", "MONGODB"),
   ("_service_info_snmp", "SNMP"), ("_service_info_smb", "SMB"),
   ("_service_info_modbus", "MODBUS"), ("_service_info_generic", "GENERIC"),
   ("_service_info_mysql_creds", "MYSQL"), ("_service_info_postgresql_creds", "POSTGRESQL")]

/-- Modelled from the spec: `SEVERITY_RANK` is exported by a component file
that is absent from the sources (only its importers are present). Spec §4.2
fixes the order CRITICAL < HIGH < MEDIUM < LOW < INFO with lower rank = more
severe; the entries are listed in that order with ranks 0 through 4. -/
def SEVERITY_RANK : List (JStr × Nat) :=
  [(js "CRITICAL", 0), (js "HIGH", 1), (js "MEDIUM", 2), (js "LOW", 3), (js "INFO", 4)]

/-- The rank INFO maps to (the fallback used throughout the component). -/
def infoRank : Nat := 4

/-- `SEVERITY_RANK[sev] ?? SEVERITY_RANK.INFO`. -/
def rankOf (sev : JStr) : Nat := (SEVERITY_RANK.lookup sev).getD infoRank

/-- `topSeverityFromResult`: the lowest rank (highest severity) across the
findings of one probe result, INFO when it has none. -/
def topSeverityFromResult (result : JsVal) : Nat :=
  let fs := (normalizeProbeResult result).findings
  if fs.isEmpty then infoRank
  else
    match fs.map (fun f => rankOf f.severity) with
    | [] => infoRank
    | r :: rs => rs.foldl min r

/-- Modelled from the spec: the `AggregatedPortsData` shape is declared in a
types file absent from the sources. Per the spec, a pass carries the list of
unique discovered ports (kept in ascending numeric order by the builder) and,
per port, the probe-name-keyed result maps of the service-detection and
web-test categories. -/
structure AggregatedPortsData where
  ports : List Nat
  services : List (Nat × List (String × JsVal))
  webTests : List (Nat × List (String × JsVal))

/-- Severity bookkeeping of the `portAnalysis` loop for one probe result:
every finding lowers the running best rank, and a result without findings
contributes `topSeverityFromResult` (always INFO) through `Math.min`. -/
def sevStep (best : Nat) (result : JsVal) : Nat :=
  let fs := (normalizeProbeResult result).findings
  let b := fs.foldl (fun acc f => if rankOf f.severity < acc then rankOf f.severity else acc) best
  if fs.isEmpty then min b (topSeverityFromResult result) else b

/-- The service probes attached to a port. -/
def svcEntries (agg : AggregatedPortsData) (port : Nat) : List (String × JsVal) :=
  (agg.services.lookup port).getD []

/-- The web-test probes attached to a port. -/
def webEntries (agg : AggregatedPortsData) (port : Nat) : List (String × JsVal) :=
  (agg.webTests.lookup port).getD []

/-- `bestSev` of the `portAnalysis` loop: the service probes are folded
first, then the web-test probes, starting from the INFO rank. -/
def portBestSev (agg : AggregatedPortsData) (port : Nat) : Nat :=
  let b1 := (svcEntries agg port).foldl (fun b pr => sevStep b pr.2) infoRank
  (webEntries agg port).foldl (fun b pr => sevStep b pr.2) b1

/-- The severity label stored in `severityMap`: the `SEVERITY_RANK` entry
whose rank equals the best rank, INFO as fallback. -/
def portSeverityLabel (agg : AggregatedPortsData) (port : Nat) : JStr :=
  ((SEVERITY_RANK.find? (fun e => e.2 == portBestSev agg port)).map (fun e => e.1)).getD (js "INFO")

/-- Protocol inference of the `portAnalysis` loop: the first service probe
whose name maps to a protocol other than GENERIC and TLS wins. -/
def portDetected (agg : AggregatedPortsData) (port : Nat) : Option String :=
  (svcEntries agg port).foldl
    (fun d pr =>
      match PROBE_TO_PROTOCOL.lookup pr.1 with
      | some proto =>
        if proto != "GENERIC" && proto != "TLS" && d.isNone then some proto else d
      | none => d)
    none

/-- The non-standard-port flag: a protocol was inferred and the well-known
table either misses the port or expects a different service. -/
def isNonStandard (agg : AggregatedPortsData) (port : Nat) : Bool :=
  match portDetected agg port with
  | none => false
  | some d =>
    match WELL_KNOWN_PORTS.lookup port with
    | none => true
    | some expected => expected != d

/-- The filter query state of the `DiscoveredPorts` component (sets are
modelled as lists; membership is what the predicates observe). -/
structure Query where
  searchQuery : JStr
  severityFilter : List JStr
  categoryFilter : List String
  owaspFilter : List JStr

/-- The decimal text of a port number (`String(port)`). -/
def natText (n : Nat) : JStr := (toString n).data

/-- The per-port predicate of `filteredPorts`, mirroring its early-return
chain. The severity and compliance maps are the `portAnalysis` outputs the
component reads (`severityMap`, `owaspIdsPerPort`). -/
def filterPred (agg : AggregatedPortsData) (severityMap : List (Nat × JStr))
    (owaspIdsPerPort : List (Nat × List JStr)) (q : Query) (port : Nat) : Bool :=
  if !q.searchQuery.isEmpty && !includes (natText port) q.searchQuery then false
  else if 0 < q.severityFilter.length
      && !(decide (((severityMap.lookup port).getD (js "INFO")) ∈ q.severityFilter)) then false
  else if 0 < q.categoryFilter.length then
    let hasService := (agg.services.lookup port).isSome
    let hasWeb := (agg.webTests.lookup port).isSome
    let hasData := hasService || hasWeb
    let matched :=
      (decide ("services" ∈ q.categoryFilter) && hasService)
      || (decide ("web" ∈ q.categoryFilter) && hasWeb)
      || (decide ("nodata" ∈ q.categoryFilter) && !hasData)
    if !matched then false
    else owaspPred owaspIdsPerPort q port
  else owaspPred owaspIdsPerPort q port
where
  /-- The compliance-filter tail of the predicate: with a non-empty OWASP
  set the port must carry at least one requested identifier. -/
  owaspPred (owaspIdsPerPort : List (Nat × List JStr)) (q : Query) (port : Nat) : Bool :=
    if 0 < q.owaspFilter.length then
      match owaspIdsPerPort.lookup port with
      | none => false
      | some portOwasp => q.owaspFilter.any (fun id => decide (id ∈ portOwasp))
    else true

/-- `filteredPorts`: the pass ports surviving all four predicates. -/
def filteredPorts (agg : AggregatedPortsData) (severityMap : List (Nat × JStr))
    (owaspIdsPerPort : List (Nat × List JStr)) (q : Query) : List Nat :=
  agg.ports.filter (filterPred agg severityMap owaspIdsPerPort q)

/-- The two sort modes of the component. -/
inductive SortMode where
  | numeric
  | risk
deriving DecidableEq

/-- The risk-mode comparison: severity rank ascending, then port number
ascending (the comparator `sevA - sevB || a - b` as a total order). -/
def riskLe (severityMap : List (Nat × JStr)) (a b : Nat) : Bool :=
  let ra := rankOf ((severityMap.lookup a).getD (js "INFO"))
  let rb := rankOf ((severityMap.lookup b).getD (js "INFO"))
  decide (ra < rb) || (ra == rb && decide (a ≤ b))


/-- `sortedPorts`: numeric mode returns the filtered list unchanged; risk
mode sorts it with the severity-then-port comparator. -/
def sortedPorts (mode : SortMode) (filtered : List Nat)
    (severityMap : List (Nat × JStr)) : List Nat :=
  match mode with
  | SortMode.numeric => filtered
  | SortMode.risk => filtered.mergeSort (riskLe severityMap)

/-- The severity rank contributed by each finding of one probe result
(`SEVERITY_RANK[f.severity] ?? SEVERITY_RANK.INFO`). -/
def resultRanks (r : JsVal) : List Nat :=
  (normalizeProbeResult r).findings.map (fun f => rankOf f.severity)

/-- All finding ranks attached to a port, service probes first, in probe
iteration order. -/
def portFindingRanks (agg : AggregatedPortsData) (port : Nat) : List Nat :=
  ((svcEntries agg port ++ webEntries agg port).map (fun pr => resultRanks pr.2)).flatten

/-- The spec formulation of protocol inference: the first service probe
whose name maps to a protocol other than the two catch-alls determines the
port's protocol. -/
def firstInferred (svc : List (String × JsVal)) : Option String :=
  (svc.find? (fun pr =>
    match PROBE_TO_PROTOCOL.lookup pr.1 with
    | some proto => !(proto == "GENERIC") && !(proto == "TLS")
    | none => false)).bind (fun pr => PROBE_TO_PROTOCOL.lookup pr.1)

/-- The severity rank a port contributes to the risk-mode comparator. -/
def riskRank (severityMap : List (Nat × JStr)) (a : Nat) : Nat :=
  rankOf ((severityMap.lookup a).getD (js "INFO"))

/-- Example structured input carrying an error next to other fields. -/
def exErrFields : List (String × JsVal) :=
  [("error", vStr (js "connection refused")), ("banner", vStr (js "OpenSSH 9.0p1")),
   ("vulnerabilities", vArr [vStr (js "VULNERABILITY: x")]),
   ("findings", vArr [vObj [("severity", vStr (js "HIGH")), ("title", vStr (js "t"))]])]

/-- Example findings array with an unrecognized severity value. -/
def exWildFindings : List JsVal :=
  [vObj [("severity", vStr (js "wild")), ("title", vStr (js "t"))]]

/-- Example structured record wrapping `exWildFindings`. -/
def exWildFields : List (String × JsVal) := [("findings", vArr exWildFindings)]

/-- The rendered label of the HIGH "Open Relay Detected" finding. -/
def openRelayLabel : JStr := js "VULNERABILITY: [HIGH] Open Relay Detected"

/-- Structured record with an "Open Relay Detected" finding and one legacy
vulnerability-list entry. -/
def openRelayInput (legacyEntry : JStr) : List (String × JsVal) :=
  [("findings", vArr [vObj [("severity", vStr (js "HIGH")), ("title", vStr (js "Open Relay Detected"))]]),
   ("vulnerabilities", vArr [vStr legacyEntry])]

/-- Example pass: port 8080 with a MEDIUM service finding and a CRITICAL
web finding. -/
def exAggMedCrit : AggregatedPortsData :=
  { ports := [8080]
    services := [(8080, [("_service_info_http",
      vObj [("findings", vArr [vObj [("severity", vStr (js "MEDIUM")), ("title", vStr (js "m"))]])])])]
    webTests := [(8080, [("_web_test_xss",
      vObj [("findings", vArr [vObj [("severity", vStr (js "CRITICAL")), ("title", vStr (js "c"))]])])])] }

/-- Example pass: SSH detected on port 2222. -/
def exAgg2222 : AggregatedPortsData :=
  { ports := [2222], services := [(2222, [("_service_info_ssh", vStr (js "SSH-2.0-OpenSSH"))])],
    webTests := [] }

/-- Example pass: SSH detected on port 22. -/
def exAgg22 : AggregatedPortsData :=
  { ports := [22], services := [(22, [("_service_info_ssh", vStr (js "SSH-2.0-OpenSSH"))])],
    webTests := [] }

/-- Example pass: one probe whose result is a legacy vulnerability-marker
string and therefore has no structured findings. -/
def exAggLegacyVuln : AggregatedPortsData :=
  { ports := [99], services := [(99, [("_service_info_generic", vStr (js "VULNERABILITY: open"))])],
    webTests := [] }

/-- Example pass with two ports in ascending order, used for the sort claim. -/
def exAggSorted : AggregatedPortsData :=
  { ports := [22, 80], services := [(22, [("_service_info_ssh", vStr (js "SSH-2.0"))])],
    webTests := [] }

/-- The empty query (no text, no filters). -/
def emptyQuery : Query := { searchQuery := [], severityFilter := [], categoryFilter := [], owaspFilter := [] }

/-! ## Properties of the newline split -/

theorem splitNl_ne_nil (s : JStr) : splitNl s ≠ [] := by
  induction s with
  | nil => simp [splitNl]
  | cons c cs ih =>
    rw [splitNl]
    by_cases h : c = '\n'
    · simp [h]
    · rw [if_neg h]
      rcases hs : splitNl cs with _ | ⟨a, b⟩ <;> simp

theorem head_splitNl_isPre : ∀ {s h : JStr} {t : List JStr}, splitNl s = h :: t → h <+: s := by
  intro s
  induction s with
  | nil =>
    intro h t hs
    simp [splitNl] at hs
    simp [hs.1]
  | cons c cs ih =>
    intro h t hs
    rw [splitNl] at hs
    by_cases hc : c = '\n'
    · rw [if_pos hc] at hs
      cases hs
      exact List.nil_prefix
    · rw [if_neg hc] at hs
      rcases hcs : splitNl cs with _ | ⟨hd, tl⟩
      · exact absurd hcs (splitNl_ne_nil cs)
      · rw [hcs] at hs
        cases hs
        exact List.cons_prefix_cons.mpr ⟨rfl, ih hcs⟩

theorem mem_splitNl_sub : ∀ {s l : JStr}, l ∈ splitNl s → l <:+: s := by
  intro s
  induction s with
  | nil =>
    intro l hl
    simp [splitNl] at hl
    simp [hl]
  | cons c cs ih =>
    intro l hl
    rw [splitNl] at hl
    by_cases h : c = '\n'
    · rw [if_pos h] at hl
      rcases List.mem_cons.mp hl with h1 | h1
      · subst h1; exact List.nil_infix
      · exact List.infix_cons_iff.mpr (Or.inr (ih h1))
    · rw [if_neg h] at hl
      rcases hs : splitNl cs with _ | ⟨hd, tl⟩
      · exact absurd hs (splitNl_ne_nil cs)
      · rw [hs] at hl
        rcases List.mem_cons.mp hl with h1 | h1
        · subst h1
          exact (List.cons_prefix_cons.mpr ⟨rfl, head_splitNl_isPre hs⟩).isInfix
        · have hmem : l ∈ splitNl cs := hs ▸ List.mem_cons_of_mem _ h1
          exact List.infix_cons_iff.mpr (Or.inr (ih hmem))

theorem token_pre_head : ∀ {tok s h : JStr} {tl : List JStr},
    (∀ c ∈ tok, c ≠ '\n') → tok <+: s → splitNl s = h :: tl → tok <+: h := by
  intro tok s
  induction s generalizing tok with
  | nil =>
    intro h tl _ hp hs
    simp [splitNl] at hs
    have hp2 : tok = [] := List.sublist_nil.mp hp.sublist
    simp [hp2, hs.1]
  | cons c cs ih =>
    intro h tl hnl hp hs
    cases tok with
    | nil => exact List.nil_prefix
    | cons a tok1 =>
      obtain ⟨hac, hp1⟩ := List.cons_prefix_cons.mp hp
      have hcn : c ≠ '\n' := hac ▸ hnl a (List.mem_cons_self a tok1)
      rw [splitNl, if_neg hcn] at hs
      rcases hcs : splitNl cs with _ | ⟨hd, tl1⟩
      · exact absurd hcs (splitNl_ne_nil cs)
      · rw [hcs] at hs
        cases hs
        have := ih (fun x hx => hnl x (List.mem_cons_of_mem _ hx)) hp1 hcs
        exact List.cons_prefix_cons.mpr ⟨hac, this⟩

theorem token_infix_segment : ∀ {tok s : JStr}, tok ≠ [] → (∀ c ∈ tok, c ≠ '\n') →
    tok <:+: s → ∃ l ∈ splitNl s, tok <:+: l := by
  intro tok s
  induction s with
  | nil =>
    intro hne _ hi
    exact absurd (List.sublist_nil.mp hi.sublist) hne
  | cons c cs ih =>
    intro hne hnl hi
    rcases List.infix_cons_iff.mp hi with hp | hi2
    · rcases hs : splitNl (c :: cs) with _ | ⟨h, tl⟩
      · exact absurd hs (splitNl_ne_nil _)
      · exact ⟨h, hs ▸ List.mem_cons_self h tl, (token_pre_head hnl hp hs).isInfix⟩
    · obtain ⟨l, hl, hinf⟩ := ih hne hnl hi2
      by_cases hc : c = '\n'
      · refine ⟨l, ?_, hinf⟩
        rw [splitNl, if_pos hc]
        exact List.mem_cons_of_mem _ hl
      · rcases hs : splitNl cs with _ | ⟨hd, tl⟩
        · exact absurd hs (splitNl_ne_nil cs)
        · rw [hs] at hl
          rcases List.mem_cons.mp hl with h1 | h1
          · refine ⟨c :: hd, ?_, (h1 ▸ hinf).trans (List.suffix_cons c hd).isInfix⟩
            rw [splitNl, if_neg hc, hs]
            exact List.mem_cons_self _ _
          · refine ⟨l, ?_, hinf⟩
            rw [splitNl, if_neg hc, hs]
            exact List.mem_cons_of_mem _ h1

/-! ## Claim C2: hasVulnerability equals non-emptiness of vulnerabilities -/

theorem normalizeLegacy_vuln_iff (s : JStr) :
    (normalizeLegacy s).hasVulnerability = true ↔ (normalizeLegacy s).vulnerabilities ≠ [] := by
  show includes s (js "VULNERABILITY") = true ↔
    ((splitNl s).filter lineKept).filter (fun l => includes l (js "VULNERABILITY")) ≠ []
  constructor
  · intro h
    have hinf : js "VULNERABILITY" <:+: s := by
      simpa [includes] using h
    obtain ⟨l, hl, hVl⟩ := token_infix_segment (by decide) (by decide) hinf
    have hVmem : 'V' ∈ l := hVl.sublist.mem (by decide)
    have hmem : l ∈ ((splitNl s).filter lineKept).filter
        (fun l => includes l (js "VULNERABILITY")) := by
      rw [List.mem_filter]
      refine ⟨List.mem_filter.mpr ⟨hl, ?_⟩, by simpa [includes] using hVl⟩
      exact List.any_eq_true.mpr ⟨'V', hVmem, by decide⟩
    exact List.ne_nil_of_mem hmem
  · intro h
    obtain ⟨l, hl⟩ := List.exists_mem_of_ne_nil _ h
    rw [List.mem_filter] at hl
    obtain ⟨hl1, hl2⟩ := hl
    rw [List.mem_filter] at hl1
    have h1 : js "VULNERABILITY" <:+: l := by simpa [includes] using hl2
    have h2 : l <:+: s := mem_splitNl_sub hl1.1
    simpa [includes] using h1.trans h2

/-- C2. For every input, the normalized result satisfies
`hasVulnerability = (vulnerabilities is non-empty)`: the structured branch
computes the flag from the accumulated list, the legacy branch from the raw
text, which contains the marker exactly when some kept line does. -/
theorem claim2_hasVulnerability_iff_nonempty (v : JsVal) :
    (normalizeProbeResult v).hasVulnerability = true ↔
      (normalizeProbeResult v).vulnerabilities ≠ [] := by
  cases v with
  | vNull => simp [normalizeProbeResult]
  | vObj fs =>
    show (normalizeObj fs).hasVulnerability = true ↔ (normalizeObj fs).vulnerabilities ≠ []
    rw [normalizeObj]
    cases h : getF fs "error" with
    | some e =>
      cases he : truthy e with
      | true => simp [he]
      | false => simp [he, List.isEmpty_iff]
    | none => simp [List.isEmpty_iff]
  | vStr s => exact normalizeLegacy_vuln_iff _
  | vBool b => exact normalizeLegacy_vuln_iff _
  | vNum n => exact normalizeLegacy_vuln_iff _
  | vArr xs => exact normalizeLegacy_vuln_iff _

/-! ## Claim C1: the error short-circuit -/

/-- C1. A structured input with a truthy `error` field normalizes to the
terminal error shape — one line carrying the stringified error, no findings,
no vulnerabilities, no banner — regardless of every other field. -/
theorem claim1_error_short_circuit (fs : List (String × JsVal)) (e : JsVal)
    (h1 : getF fs "error" = some e) (h2 : truthy e = true) :
    normalizeProbeResult (vObj fs) =
      { lines := [jsToString e], findings := [], hasVulnerability := false,
        hasError := true, vulnerabilities := [], banner := none } := by
  show normalizeObj fs = _
  rw [normalizeObj]
  simp [h1, h2]

theorem claim1_witness :
    getF exErrFields "error" = some (vStr (js "connection refused"))
    ∧ truthy (vStr (js "connection refused")) = true
    ∧ normalizeProbeResult (vObj exErrFields) =
      { lines := [js "connection refused"], findings := [], hasVulnerability := false,
        hasError := true, vulnerabilities := [], banner := none } :=
  ⟨rfl, by decide,
    claim1_error_short_circuit exErrFields (vStr (js "connection refused")) rfl (by decide)⟩

/-! ## Claim C9: the exact hasError conditions -/

/-- C9. `hasError` is true exactly for structured records with a truthy
`error` field and for free-text inputs containing a failure/timeout marker or
starting with the error marker; null input and structured records whose other
field values merely contain marker text yield `hasError = false`. -/
theorem claim9_hasError_characterization :
    (normalizeProbeResult vNull).hasError = false
    ∧ (∀ s : JStr, (normalizeProbeResult (vStr s)).hasError =
        (includes s (js "failed") || includes s (js "timed out") || startsWith s (js "ERROR:")))
    ∧ (∀ fs, (normalizeProbeResult (vObj fs)).hasError = hasErrField fs)
    ∧ (normalizeProbeResult (vObj [("banner", vStr (js "connection failed"))])).hasError = false := by
  refine ⟨rfl, fun s => rfl, fun fs => ?_, by decide⟩
  show (normalizeObj fs).hasError = hasErrField fs
  rw [normalizeObj, hasErrField]
  cases h : getF fs "error" with
  | some e => cases he : truthy e <;> simp [he]
  | none => simp

/-! ## Claim C3: parsed severities -/

theorem foldl_pfStep_fst : ∀ (xs : List JsVal) (acc : List ParsedFinding × List JStr × List JStr),
    (xs.foldl pfStep acc).1 = acc.1 ++ xs.filterMap parseFinding := by
  intro xs
  induction xs with
  | nil => intro acc; simp
  | cons x xs ih =>
    intro acc
    rw [List.foldl_cons, List.filterMap_cons]
    cases h : parseFinding x with
    | none => rw [ih]; simp [pfStep, h]
    | some p =>
      by_cases hv : isVulnSeverity p.severity = true
      · simp [pfStep, h, hv, ih]
      · simp [pfStep, h, hv, ih]

theorem processFindings_fst (xs : List JsVal) :
    (processFindings xs).1 = xs.filterMap parseFinding := by
  simpa [processFindings] using foldl_pfStep_fst xs ([], [], [])

theorem structBody_findings (fs : List (String × JsVal)) (banner : Option JStr)
    (xs : List JsVal) (h : getF fs "findings" = some (vArr xs)) :
    (structBody fs banner).1 = xs.filterMap parseFinding := by
  rw [structBody]
  simp only [h]
  cases xs with
  | nil => simp
  | cons y ys => simp [processFindings_fst]

/-- C3 fails on the code: an unrecognized severity is carried through
uppercased rather than defaulted to INFO, so a parsed finding's severity
need not be one of the five enumerated levels. -/
theorem claim3_counterexample :
    (normalizeProbeResult (vObj exWildFields)).findings =
      [{ severity := js "WILD", title := js "t" }]
    ∧ js "WILD" ∉ [js "CRITICAL", js "HIGH", js "MEDIUM", js "LOW", js "INFO"] := by
  constructor
  · decide
  · decide

/-- C3 amended. The findings of a structured input are the pointwise parse
of its findings array, and a parsed severity is the uppercased input value,
with INFO substituted only when the severity field is missing or null —
unrecognized values are not defaulted. -/
theorem claim3_amended :
    (∀ fs xs, hasErrField fs = false → getF fs "findings" = some (vArr xs) →
      (normalizeProbeResult (vObj fs)).findings = xs.filterMap parseFinding)
    ∧ (∀ f p, (getF f "severity" = none ∨ getF f "severity" = some vNull) →
        parseFinding (vObj f) = some p → p.severity = js "INFO")
    ∧ (∀ f v p, getF f "severity" = some v → v ≠ vNull →
        parseFinding (vObj f) = some p → p.severity = upperStr (jsToString v)) := by
  refine ⟨fun fs xs herr hf => ?_, fun f p h hp => ?_, fun f v p hv hvn hp => ?_⟩
  · show (normalizeObj fs).findings = _
    rw [normalizeObj]
    cases he : getF fs "error" with
    | some e =>
      have htr : truthy e = false := by simpa [hasErrField, he] using herr
      simp only [he, htr, Bool.false_eq_true, if_false]
      exact structBody_findings fs _ xs hf
    | none =>
      simp only [he]
      exact structBody_findings fs _ xs hf
  · rw [parseFinding] at hp
    cases hp
    rcases h with h | h <;> simp [h, nullishD] <;> decide
  · rw [parseFinding] at hp
    cases hp
    cases v with
    | vNull => exact absurd rfl hvn
    | vBool b => simp [hv, nullishD]
    | vNum n => simp [hv, nullishD]
    | vStr s => simp [hv, nullishD]
    | vArr xs => simp [hv, nullishD]
    | vObj fs => simp [hv, nullishD]

theorem claim3_witness :
    hasErrField exWildFields = false
    ∧ (normalizeProbeResult (vObj exWildFields)).findings = exWildFindings.filterMap parseFinding :=
  ⟨by decide, claim3_amended.1 exWildFields exWildFindings (by decide) rfl⟩

/-! ## Claim C4: deduplication of the legacy vulnerability list -/

/-- C4 fails on the code: a legacy vulnerability-list entry that contains
the finding title as a proper superstring is not deduplicated — the check
asks whether a recorded entry contains the legacy text, and the rendered
label does not contain the longer string — so the condition surfaces twice. -/
theorem claim4_counterexample :
    includes (js "SMTP Open Relay Detected") (js "Open Relay Detected") = true
    ∧ ((normalizeProbeResult (vObj (openRelayInput (js "SMTP Open Relay Detected")))).vulnerabilities.filter
        (fun l => includes l (js "Open Relay Detected"))).length = 2 := by
  constructor
  · decide
  · decide

/-- C4 amended. With an "Open Relay Detected" HIGH finding recorded, a
legacy vulnerability-list entry is suppressed exactly when the rendered
label contains it as a substring (same text, the bare title, or any fragment
of the label); otherwise — in particular when the legacy entry strictly
contains the title — it is appended as a second entry. -/
theorem structBody_openRelay (vs : JStr) :
    (structBody (openRelayInput vs) none).2.1 =
      (addLegacyVulns ([openRelayLabel], [openRelayLabel]) [vStr vs]).1 := by
  have h1 : getF (openRelayInput vs) "findings" =
      some (vArr [vObj [("severity", vStr (js "HIGH")), ("title", vStr (js "Open Relay Detected"))]]) := rfl
  have h2 : getF (openRelayInput vs) "vulnerabilities" = some (vArr [vStr vs]) := rfl
  have h3 : processFindings
      [vObj [("severity", vStr (js "HIGH")), ("title", vStr (js "Open Relay Detected"))]] =
      ([{ severity := js "HIGH", title := js "Open Relay Detected" }],
        [openRelayLabel], [openRelayLabel]) := by decide
  have hcatch : ∀ acc : List JStr × List JStr, catchAllFields (openRelayInput vs) acc = acc :=
    fun acc => rfl
  rw [structBody]
  simp only [h1, h2, h3, hcatch]
  rfl

theorem claim4_amended (vs : JStr) :
    (normalizeProbeResult (vObj (openRelayInput vs))).vulnerabilities =
      if includes openRelayLabel vs then [openRelayLabel] else [openRelayLabel, vs] := by
  have he : getF (openRelayInput vs) "error" = none := rfl
  have hb : getF (openRelayInput vs) "banner" = none := rfl
  have hv : (normalizeProbeResult (vObj (openRelayInput vs))).vulnerabilities =
      (addLegacyVulns ([openRelayLabel], [openRelayLabel]) [vStr vs]).1 := by
    show (normalizeObj (openRelayInput vs)).vulnerabilities = _
    rw [normalizeObj]
    simp only [he, hb]
    exact structBody_openRelay vs
  rw [hv, addLegacyVulns, List.foldl_cons, List.foldl_nil]
  by_cases hc : includes openRelayLabel vs = true
  · simp [jsToString, hc]
  · have hne : vs ≠ openRelayLabel := by
      intro h
      apply hc
      rw [h, includes]
      simp
    simp [jsToString, hc, hne]

/-! ## Severity aggregation lemmas -/

theorem lookup_getD_le {s : JStr} :
    ∀ {l : List (JStr × Nat)}, (∀ p ∈ l, p.2 ≤ infoRank) → (l.lookup s).getD infoRank ≤ infoRank := by
  intro l
  induction l with
  | nil => intro _; simp
  | cons p tl ih =>
    intro h
    obtain ⟨k, v⟩ := p
    cases hk : s == k with
    | true =>
      rw [List.lookup, hk]
      exact h (k, v) (List.mem_cons_self (k, v) tl)
    | false =>
      rw [List.lookup, hk]
      exact ih fun q hq => h q (List.mem_cons_of_mem _ hq)

theorem rankOf_le (s : JStr) : rankOf s ≤ infoRank := by
  rw [rankOf]
  exact lookup_getD_le (by decide)

theorem foldl_min_le_init : ∀ (l : List Nat) (b : Nat), l.foldl min b ≤ b := by
  intro l
  induction l with
  | nil => intro b; simp
  | cons x xs ih =>
    intro b
    rw [List.foldl_cons]
    exact (ih (min b x)).trans (Nat.min_le_left b x)

theorem foldl_min_le_mem : ∀ (l : List Nat) (b x : Nat), x ∈ l → l.foldl min b ≤ x := by
  intro l
  induction l with
  | nil => intro b x hx; simp at hx
  | cons y ys ih =>
    intro b x hx
    rcases List.mem_cons.mp hx with h | h
    · subst h
      rw [List.foldl_cons]
      exact (foldl_min_le_init ys (min b x)).trans (Nat.min_le_right b x)
    · rw [List.foldl_cons]
      exact ih (min b y) x h

theorem foldl_min_eq_init_or_mem : ∀ (l : List Nat) (b : Nat),
    l.foldl min b = b ∨ l.foldl min b ∈ l := by
  intro l
  induction l with
  | nil => intro b; exact Or.inl rfl
  | cons x xs ih =>
    intro b
    rw [List.foldl_cons]
    rcases ih (min b x) with h | h
    · rcases Nat.le_total b x with hbx | hxb
      · exact Or.inl (by rw [h]; exact Nat.min_eq_left hbx)
      · exact Or.inr (by rw [h, Nat.min_eq_right hxb]; exact List.mem_cons_self x xs)
    · exact Or.inr (List.mem_cons_of_mem x h)

theorem foldl_ifmin_eq : ∀ (fs : List ParsedFinding) (b : Nat),
    fs.foldl (fun acc f => if rankOf f.severity < acc then rankOf f.severity else acc) b
      = (fs.map (fun f => rankOf f.severity)).foldl min b := by
  intro fs
  induction fs with
  | nil => intro b; rfl
  | cons f fl ih =>
    intro b
    rw [List.foldl_cons, List.map_cons, List.foldl_cons, ih]
    congr 1
    by_cases h : rankOf f.severity < b
    · rw [if_pos h, Nat.min_eq_right (Nat.le_of_lt h)]
    · rw [if_neg h, Nat.min_eq_left (Nat.le_of_not_lt h)]

theorem sevStep_eq (b : Nat) (r : JsVal) (hb : b ≤ infoRank) :
    sevStep b r = (resultRanks r).foldl min b := by
  rw [sevStep, resultRanks, foldl_ifmin_eq]
  cases hfs : (normalizeProbeResult r).findings with
  | nil =>
    have ht : topSeverityFromResult r = infoRank := by
      rw [topSeverityFromResult, hfs]
      rfl
    simp [hfs, ht, Nat.min_eq_left hb]
  | cons f fl => simp [hfs]

theorem sevStep_le (b : Nat) (r : JsVal) (hb : b ≤ infoRank) : sevStep b r ≤ infoRank := by
  rw [sevStep_eq b r hb]
  exact (foldl_min_le_init _ _).trans hb

theorem foldl_sevStep_eq : ∀ (entries : List (String × JsVal)) (b : Nat), b ≤ infoRank →
    entries.foldl (fun b pr => sevStep b pr.2) b
      = ((entries.map (fun pr => resultRanks pr.2)).flatten).foldl min b := by
  intro entries
  induction entries with
  | nil => intro b _; simp
  | cons pr tl ih =>
    intro b hb
    rw [List.foldl_cons, List.map_cons, List.flatten_cons, List.foldl_append,
      ← sevStep_eq b pr.2 hb]
    exact ih (sevStep b pr.2) (sevStep_le b pr.2 hb)

theorem portBestSev_eq (agg : AggregatedPortsData) (port : Nat) :
    portBestSev agg port = (portFindingRanks agg port).foldl min infoRank := by
  rw [portBestSev, portFindingRanks, List.map_append, List.flatten_append, List.foldl_append,
    foldl_sevStep_eq (svcEntries agg port) infoRank (Nat.le_refl _)]
  exact foldl_sevStep_eq (webEntries agg port) _
    ((foldl_min_le_init _ _).trans (Nat.le_refl _))

theorem portFindingRanks_le (agg : AggregatedPortsData) (port : Nat) :
    ∀ r ∈ portFindingRanks agg port, r ≤ infoRank := by
  intro r hr
  rw [portFindingRanks] at hr
  obtain ⟨l, hl, hrl⟩ := List.mem_flatten.mp hr
  obtain ⟨pr, _, hpr⟩ := List.mem_map.mp hl
  subst hpr
  rw [resultRanks] at hrl
  obtain ⟨f, _, hf⟩ := List.mem_map.mp hrl
  subst hf
  exact rankOf_le f.severity

/-! ## Claim C5: dominant severity is the minimum finding rank -/

/-- C5. The dominant severity rank of a port is the fold of `min` over the
ranks of all structured findings across both probe categories starting from
INFO; it is INFO when no findings exist, is a lower bound of every finding
rank, is attained by some finding when any exist, and the MEDIUM-service +
CRITICAL-web example port is labelled CRITICAL. -/
theorem claim5_dominant_severity :
    (∀ agg port, portBestSev agg port = (portFindingRanks agg port).foldl min infoRank)
    ∧ (∀ agg port, portFindingRanks agg port = [] → portBestSev agg port = infoRank)
    ∧ (∀ agg port r, r ∈ portFindingRanks agg port → portBestSev agg port ≤ r)
    ∧ (∀ agg port, portFindingRanks agg port ≠ [] →
        portBestSev agg port ∈ portFindingRanks agg port)
    ∧ portSeverityLabel exAggMedCrit 8080 = js "CRITICAL" := by
  refine ⟨portBestSev_eq, fun agg port h => ?_, fun agg port r hr => ?_, fun agg port h => ?_, by decide⟩
  · rw [portBestSev_eq, h]
    rfl
  · rw [portBestSev_eq]
    exact foldl_min_le_mem _ _ _ hr
  · rw [portBestSev_eq]
    rcases foldl_min_eq_init_or_mem (portFindingRanks agg port) infoRank with he | hm
    · rcases List.exists_mem_of_ne_nil _ h with ⟨x, hx⟩
      have hle : (portFindingRanks agg port).foldl min infoRank ≤ x := foldl_min_le_mem _ _ _ hx
      have hxle : x ≤ infoRank := portFindingRanks_le agg port x hx
      have : x = infoRank := Nat.le_antisymm hxle (he ▸ hle)
      rw [he, ← this]
      exact hx
    · exact hm

theorem claim5_witness :
    portFindingRanks exAggMedCrit 8080 ≠ []
    ∧ portBestSev exAggMedCrit 8080 ∈ portFindingRanks exAggMedCrit 8080 :=
  ⟨by decide, claim5_dominant_severity.2.2.2.1 exAggMedCrit 8080 (by decide)⟩

/-! ## Claim C10: findings-free probe results contribute INFO -/

/-- C10. A probe result with no structured findings contributes exactly the
INFO rank to the port fold (its step is `min` with INFO), and when every
probe result attached to a port has no structured findings the dominant
severity is INFO (and is labelled INFO) no matter what legacy vulnerability
markers those results carry: only structured findings can raise it. -/
theorem claim10_no_findings_info :
    (∀ (b : Nat) (r : JsVal), (normalizeProbeResult r).findings = [] →
      sevStep b r = min b infoRank)
    ∧ (∀ (agg : AggregatedPortsData) (port : Nat),
        (∀ pr ∈ svcEntries agg port ++ webEntries agg port,
          (normalizeProbeResult pr.2).findings = []) →
        portBestSev agg port = infoRank ∧ portSeverityLabel agg port = js "INFO") := by
  constructor
  · intro b r h
    have ht : topSeverityFromResult r = infoRank := by
      rw [topSeverityFromResult, h]
      rfl
    rw [sevStep]
    simp [h, ht]
  · intro agg port h
    have hranks : portFindingRanks agg port = [] := by
      rw [portFindingRanks, List.flatten_eq_nil_iff]
      intro l hl
      obtain ⟨pr, hpr, hprl⟩ := List.mem_map.mp hl
      subst hprl
      rw [resultRanks, h pr hpr]
      rfl
    have h4 : portBestSev agg port = infoRank := by
      rw [portBestSev_eq, hranks]
      rfl
    refine ⟨h4, ?_⟩
    rw [portSeverityLabel, h4]
    decide

theorem claim10_witness :
    (∀ pr ∈ svcEntries exAggLegacyVuln 99 ++ webEntries exAggLegacyVuln 99,
      (normalizeProbeResult pr.2).findings = [])
    ∧ (portBestSev exAggLegacyVuln 99 = infoRank
        ∧ portSeverityLabel exAggLegacyVuln 99 = js "INFO")
    ∧ (normalizeProbeResult (vStr (js "VULNERABILITY: open"))).hasVulnerability = true :=
  ⟨by decide, claim10_no_findings_info.2 exAggLegacyVuln 99 (by decide), by decide⟩

/-! ## Claim C6: protocol inference and the non-standard-port flag -/

theorem foldl_detect_some : ∀ (l : List (String × JsVal)) (d : Option String), d.isSome →
    l.foldl
      (fun d pr =>
        match PROBE_TO_PROTOCOL.lookup pr.1 with
        | some proto => if proto != "GENERIC" && proto != "TLS" && d.isNone then some proto else d
        | none => d)
      d = d := by
  intro l
  induction l with
  | nil => intro d _; rfl
  | cons pr tl ih =>
    intro d hd
    rw [List.foldl_cons]
    have hstep : (match PROBE_TO_PROTOCOL.lookup pr.1 with
        | some proto => if proto != "GENERIC" && proto != "TLS" && d.isNone then some proto else d
        | none => d) = d := by
      cases hl : PROBE_TO_PROTOCOL.lookup pr.1 with
      | none => rfl
      | some proto =>
        have : d.isNone = false := by
          cases d
          · simp at hd
          · rfl
        simp [this]
    rw [hstep]
    exact ih d hd

theorem portDetected_eq_firstInferred (agg : AggregatedPortsData) (port : Nat) :
    portDetected agg port = firstInferred (svcEntries agg port) := by
  rw [portDetected]
  generalize svcEntries agg port = l
  induction l with
  | nil => rfl
  | cons pr tl ih =>
    rw [List.foldl_cons, firstInferred, List.find?]
    cases hl : PROBE_TO_PROTOCOL.lookup pr.1 with
    | none =>
      simp only [hl]
      rw [← firstInferred]
      exact ih
    | some proto =>
      by_cases hp : (!(proto == "GENERIC") && !(proto == "TLS")) = true
      · have : (proto != "GENERIC" && proto != "TLS" && (none : Option String).isNone) = true := by
          simp_all [bne]
        simp only [hl, this, if_true, hp]
        rw [foldl_detect_some tl (some proto) rfl]
        simp [hl]
      · have : (proto != "GENERIC" && proto != "TLS" && (none : Option String).isNone) = false := by
          simp_all [bne]
        simp only [hl, this, Bool.false_eq_true, if_false]
        rw [Bool.not_eq_true] at hp
        rw [hp, ← firstInferred]
        exact ih

/-- C6. The non-standard flag holds exactly when a protocol was inferred —
by the first service probe whose name maps to a protocol other than the
GENERIC and TLS catch-alls — and the well-known-port table either misses the
port or expects a different service; SSH on 2222 is non-standard, SSH on 22
is not. -/
theorem claim6_non_standard_flag :
    (∀ agg port, portDetected agg port = firstInferred (svcEntries agg port))
    ∧ (∀ agg port, isNonStandard agg port = true ↔
        ∃ d, portDetected agg port = some d ∧ WELL_KNOWN_PORTS.lookup port ≠ some d)
    ∧ isNonStandard exAgg2222 2222 = true
    ∧ isNonStandard exAgg22 22 = false := by
  refine ⟨portDetected_eq_firstInferred, fun agg port => ?_, by decide, by decide⟩
  rw [isNonStandard]
  cases hd : portDetected agg port with
  | none => simp
  | some d =>
    cases hw : WELL_KNOWN_PORTS.lookup port with
    | none => simp
    | some expected =>
      constructor
      · intro h
        refine ⟨d, rfl, fun hh => ?_⟩
        exact (bne_iff_ne.mp h) (Option.some.inj hh)
      · rintro ⟨d1, hd1, hne⟩
        have hdd : d = d1 := Option.some.inj hd1
        subst hdd
        refine bne_iff_ne.mpr fun he => hne ?_
        rw [he]

/-! ## Claim C7: the filter is the conjunction of four predicates -/

theorem owaspPred_iff (owaspIdsPerPort : List (Nat × List JStr)) (q : Query) (port : Nat) :
    filterPred.owaspPred owaspIdsPerPort q port = true ↔
      (q.owaspFilter = [] ∨ ∃ id ∈ q.owaspFilter, id ∈ (owaspIdsPerPort.lookup port).getD []) := by
  rw [filterPred.owaspPred]
  cases hq : q.owaspFilter with
  | nil => simp
  | cons i il =>
    have hlen : 0 < (i :: il).length := Nat.succ_pos _
    simp only [hlen, if_pos]
    cases hl : owaspIdsPerPort.lookup port with
    | none => simp [hq]
    | some po => simp [hq, List.any_eq_true]

/-- C7. A port passes the filter exactly when it is one of the pass's ports
and satisfies, conjunctively: the text predicate (query is a substring of the
decimal port text), the severity predicate (dominant label in the requested
set), the category predicate (some requested category holds), and the
compliance predicate (some requested OWASP id is carried by the port) — each
vacuously true when its query component is empty. -/
theorem claim7_filter_conjunction (agg : AggregatedPortsData)
    (severityMap : List (Nat × JStr)) (owaspIdsPerPort : List (Nat × List JStr))
    (q : Query) (port : Nat) :
    port ∈ filteredPorts agg severityMap owaspIdsPerPort q ↔
      port ∈ agg.ports
      ∧ (q.searchQuery = [] ∨ q.searchQuery <:+: natText port)
      ∧ (q.severityFilter = [] ∨ ((severityMap.lookup port).getD (js "INFO")) ∈ q.severityFilter)
      ∧ (q.categoryFilter = [] ∨
          (("services" ∈ q.categoryFilter ∧ (agg.services.lookup port).isSome = true)
            ∨ ("web" ∈ q.categoryFilter ∧ (agg.webTests.lookup port).isSome = true)
            ∨ ("nodata" ∈ q.categoryFilter
                ∧ ¬((agg.services.lookup port).isSome = true
                    ∨ (agg.webTests.lookup port).isSome = true))))
      ∧ (q.owaspFilter = [] ∨ ∃ id ∈ q.owaspFilter, id ∈ (owaspIdsPerPort.lookup port).getD []) := by
  rw [filteredPorts, List.mem_filter, and_congr_right_iff]
  intro _
  rw [filterPred]
  by_cases hA : (!q.searchQuery.isEmpty && !includes (natText port) q.searchQuery) = true
  · rw [if_pos hA]
    simp only [Bool.false_eq_true, false_iff]
    rintro ⟨ht, -, -, -⟩
    rw [Bool.and_eq_true, Bool.not_eq_true', Bool.not_eq_true'] at hA
    rcases ht with h | h
    · rw [List.isEmpty_eq_false] at hA
      exact hA.1 h
    · have hin : includes (natText port) q.searchQuery = true := by
        rw [includes]; exact decide_eq_true h
      rw [hin] at hA
      cases hA.2
  · rw [if_neg hA]
    have hText : q.searchQuery = [] ∨ q.searchQuery <:+: natText port := by
      by_cases he : q.searchQuery = []
      · exact Or.inl he
      · right
        by_contra hin
        apply hA
        rw [Bool.and_eq_true, Bool.not_eq_true', Bool.not_eq_true', List.isEmpty_eq_false]
        exact ⟨he, by rw [includes]; exact decide_eq_false hin⟩
    by_cases hB : (decide (0 < q.severityFilter.length)
        && !decide (((severityMap.lookup port).getD (js "INFO")) ∈ q.severityFilter)) = true
    · rw [if_pos hB]
      simp only [Bool.false_eq_true, false_iff]
      rintro ⟨-, hs, -, -⟩
      rw [Bool.and_eq_true, Bool.not_eq_true', decide_eq_true_eq, decide_eq_false_iff_not,
        List.length_pos] at hB
      rcases hs with h | h
      · exact hB.1 h
      · exact hB.2 h
    · rw [if_neg hB]
      have hSev : q.severityFilter = []
          ∨ ((severityMap.lookup port).getD (js "INFO")) ∈ q.severityFilter := by
        by_cases he : q.severityFilter = []
        · exact Or.inl he
        · right
          by_contra hin
          apply hB
          rw [Bool.and_eq_true, Bool.not_eq_true', decide_eq_true_eq, decide_eq_false_iff_not,
            List.length_pos]
          exact ⟨he, hin⟩
      have hMatch : ((decide ("services" ∈ q.categoryFilter) && (agg.services.lookup port).isSome
          || decide ("web" ∈ q.categoryFilter) && (agg.webTests.lookup port).isSome
          || decide ("nodata" ∈ q.categoryFilter)
              && !((agg.services.lookup port).isSome || (agg.webTests.lookup port).isSome)) = true)
          ↔ (("services" ∈ q.categoryFilter ∧ (agg.services.lookup port).isSome = true)
            ∨ ("web" ∈ q.categoryFilter ∧ (agg.webTests.lookup port).isSome = true)
            ∨ ("nodata" ∈ q.categoryFilter
                ∧ ¬((agg.services.lookup port).isSome = true
                    ∨ (agg.webTests.lookup port).isSome = true))) := by
        simp only [Bool.or_eq_true, Bool.and_eq_true, decide_eq_true_eq, Bool.not_eq_true',
          Bool.or_eq_false_iff, not_or, Bool.not_eq_true]
        tauto
      by_cases hC : 0 < q.categoryFilter.length
      · rw [if_pos hC]
        by_cases hM : (decide ("services" ∈ q.categoryFilter) && (agg.services.lookup port).isSome
            || decide ("web" ∈ q.categoryFilter) && (agg.webTests.lookup port).isSome
            || decide ("nodata" ∈ q.categoryFilter)
                && !((agg.services.lookup port).isSome || (agg.webTests.lookup port).isSome)) = true
        · simp only [hM, Bool.not_true, Bool.false_eq_true, if_false]
          rw [owaspPred_iff]
          constructor
          · intro h
            exact ⟨hText, hSev, Or.inr (hMatch.mp hM), h⟩
          · rintro ⟨-, -, -, h⟩
            exact h
        · simp only [Bool.eq_false_iff.mpr hM, Bool.not_false, if_true, Bool.false_eq_true,
            false_iff]
          rintro ⟨-, -, hcat, -⟩
          rcases hcat with h | h
          · rw [h] at hC
            exact Nat.lt_irrefl 0 hC
          · exact hM (hMatch.mpr h)
      · rw [if_neg hC]
        rw [owaspPred_iff]
        have hCat : q.categoryFilter = [] := by
          by_contra he
          exact hC (List.length_pos.mpr he)
        constructor
        · intro h
          exact ⟨hText, hSev, Or.inl hCat, h⟩
        · rintro ⟨-, -, -, h⟩
          exact h

/-! ## Claim C8: the two sort modes -/

theorem riskLe_iff (severityMap : List (Nat × JStr)) (a b : Nat) :
    riskLe severityMap a b = true ↔
      (riskRank severityMap a < riskRank severityMap b
        ∨ (riskRank severityMap a = riskRank severityMap b ∧ a ≤ b)) := by
  rw [riskLe, riskRank, riskRank]
  simp [Bool.or_eq_true, Bool.and_eq_true, decide_eq_true_eq, beq_iff_eq]

theorem riskLe_trans (severityMap : List (Nat × JStr)) (a b c : Nat)
    (hab : riskLe severityMap a b = true) (hbc : riskLe severityMap b c = true) :
    riskLe severityMap a c = true := by
  rw [riskLe_iff] at *
  omega

theorem riskLe_total (severityMap : List (Nat × JStr)) (a b : Nat) :
    (riskLe severityMap a b || riskLe severityMap b a) = true := by
  rw [Bool.or_eq_true, riskLe_iff, riskLe_iff]
  omega

/-- C8. Numeric mode returns the filtered ports in their original order, so
an ascending-ordered pass stays ascending (the builder keeps `ports` sorted
and unique, and filtering preserves order); risk mode returns a permutation
of the filtered ports ordered by severity rank ascending with port number
ascending as the tie-break. -/
theorem claim8_sort_modes :
    (∀ (agg : AggregatedPortsData) (severityMap : List (Nat × JStr))
        (owaspIdsPerPort : List (Nat × List JStr)) (q : Query),
      List.Sorted (· < ·) agg.ports →
      List.Sorted (· < ·)
        (sortedPorts SortMode.numeric (filteredPorts agg severityMap owaspIdsPerPort q) severityMap))
    ∧ (∀ (l : List Nat) (severityMap : List (Nat × JStr)),
        (sortedPorts SortMode.risk l severityMap).Perm l
        ∧ (sortedPorts SortMode.risk l severityMap).Pairwise (fun a b =>
            riskRank severityMap a < riskRank severityMap b
              ∨ (riskRank severityMap a = riskRank severityMap b ∧ a ≤ b))) := by
  constructor
  · intro agg severityMap owaspIdsPerPort q hs
    rw [sortedPorts, filteredPorts]
    exact hs.filter _
  · intro l severityMap
    rw [sortedPorts]
    refine ⟨List.mergeSort_perm l (riskLe severityMap), ?_⟩
    have hp := List.sorted_mergeSort
      (fun a b c => riskLe_trans severityMap a b c)
      (fun a b => riskLe_total severityMap a b) l
    exact hp.imp fun {a b} h => (riskLe_iff severityMap a b).mp h

theorem claim8_witness :
    List.Sorted (· < ·) exAggSorted.ports
    ∧ List.Sorted (· < ·) (sortedPorts SortMode.numeric (filteredPorts exAggSorted [] [] emptyQuery) []) :=
  ⟨by decide, claim8_sort_modes.1 exAggSorted [] [] emptyQuery (by decide)⟩

end RedMesh
